import Mathlib

/-!
Verification of the `sign_certd` core of ssh-cert-authority.

This file gives a shallow embedding of the certificate-request signing daemon
(`createSigningRequest`, `saveSigningRequest`, `extractCertFromRequest`,
`listPendingRequests`, `getRequestStatus`, `signRequest`, the serial-allocator
goroutine of `makeCertRequestHandler`) and proves or refutes the behavioural
claims of the specification against it.

Modelling conventions, fixed once here:

* Go `map[string]V` is modelled as an association list `List (String × V)`
  with `mget` (lookup, zero-value semantics where the source relies on them)
  and `mput` (insert-or-replace).
* Byte strings (`[]byte` and the wire forms produced by `Marshal`) are
  modelled as `List Nat`; the SSH wire encoding is modelled symbol-per-field
  with explicit length prefixes, which keeps it injective exactly like the
  real length-prefixed encoding.
* External library calls are parameters of the embedded handlers:
  `checkCert` stands for `ssh.CertChecker.CheckCert` (it receives the
  is-authority predicate the handler builds from the configuration),
  `agentHasKey` for the outcome of `ssh_ca_util.GetSignerForFingerprint`, and
  `signCertFn` for `ssh.Certificate.SignCert`.
* A Go runtime panic (nil-slice indexing, failed type assertion) is an
  explicit `panicked` outcome; handlers that panic leave the store unchanged.
* Response bodies reproduce the source's messages verbatim; the trailing
  newline `http.Error` appends is not modelled, and dynamic `fmt` fragments
  such as wrapped `error` texts of the form library are fixed strings.
-/

/-- Lookup in the association-list model of a Go `map[string]V`. -/
def mget {V : Type} (k : String) : List (String × V) → Option V
  | [] => none
  | (k', v) :: rest => if k = k' then some v else mget k rest

/-- Insert-or-replace in the association-list model of a Go `map[string]V`. -/
def mput {V : Type} (k : String) (v : V) : List (String × V) → List (String × V)
  | [] => [(k, v)]
  | (k', v') :: rest => if k = k' then (k, v) :: rest else (k', v') :: mput k v rest

theorem mget_mput_self {V : Type} (k : String) (v : V) :
    ∀ m : List (String × V), mget k (mput k v m) = some v := by
  intro m
  induction m with
  | nil => simp [mget, mput]
  | cons kv rest ih =>
      obtain ⟨k', v'⟩ := kv
      by_cases h : k = k' <;> simp [mget, mput, h, ih]

/-- `ssh_ca_util.SignerdConfig` (src/util/config.go). -/
structure SignerdConfig where
  SigningKeyFingerprint : String
  AuthorizedSigners : List (String × String)
  AuthorizedUsers : List (String × String)
  NumberSignersRequired : Nat
deriving DecidableEq

/-- `golang.org/x/crypto/ssh.Certificate`, with the two `PublicKey` fields kept
as their wire bytes (the daemon only ever marshals or fingerprints them) and
the certificate algorithm name (`Type()`, also the leading wire field) made
explicit.  `Serial` is a `uint64` and `CertType` a `uint32` in Go; the daemon
never brings either near its bound, so they are plain `Nat` here. -/
structure SSHCert where
  CertAlgo : String
  Nonce : List Nat
  Key : List Nat
  Serial : Nat
  CertType : Nat
  KeyId : String
  ValidPrincipals : List String
  ValidAfter : Nat
  ValidBefore : Nat
  CriticalOptions : List (String × String)
  Extensions : List (String × String)
  Reserved : List Nat
  SignatureKey : List Nat
  Signature : Option (List Nat)
deriving DecidableEq

/-- `Certificate.Type()`: the algorithm name of the certificate. -/
def SSHCert.typeStr (c : SSHCert) : String := c.CertAlgo

/-- A length-prefixed byte string, the unit of the SSH wire encoding. -/
def encBytes (l : List Nat) : List Nat := l.length :: l

/-- The code points of a string, as wire bytes. -/
def strBytes (s : String) : List Nat := s.data.map Char.toNat

/-- An SSH wire string holding text. -/
def encStr (s : String) : List Nat := encBytes (strBytes s)

/-- A fixed-width wire integer (`uint32`/`uint64` fields), one symbol. -/
def encU (n : Nat) : List Nat := [n]

/-- The packed interior of `marshalStringList`: each element length-prefixed,
concatenated. -/
def packStrs : List String → List Nat
  | [] => []
  | s :: rest => encStr s ++ packStrs rest

/-- `marshalStringList`, wrapped as one wire string. -/
def encStrList (ls : List String) : List Nat := encBytes (packStrs ls)

/-- The packed interior of `marshalTuples`: name and value of each pair
length-prefixed, concatenated. -/
def packPairs : List (String × String) → List Nat
  | [] => []
  | p :: rest => encStr p.1 ++ (encStr p.2 ++ packPairs rest)

/-- `marshalTuples`, wrapped as one wire string. -/
def encPairs (ps : List (String × String)) : List Nat := encBytes (packPairs ps)

/-- The signature field: a nil `*ssh.Signature` marshals to the empty wire
string, a present one to a nonempty blob. -/
def encSig : Option (List Nat) → List Nat
  | none => encBytes []
  | some s => encBytes (encBytes s)

/-- `Certificate.Marshal()`: the full wire form, fields in wire order. -/
def SSHCert.marshal (c : SSHCert) : List Nat :=
  encStr c.CertAlgo ++ encBytes c.Nonce ++ encBytes c.Key ++ encU c.Serial ++
  encU c.CertType ++ encStr c.KeyId ++ encStrList c.ValidPrincipals ++
  encU c.ValidAfter ++ encU c.ValidBefore ++ encPairs c.CriticalOptions ++
  encPairs c.Extensions ++ encBytes c.Reserved ++ encBytes c.SignatureKey ++
  encSig c.Signature

theorem encBytes_split {a b r s : List Nat}
    (h : encBytes a ++ r = encBytes b ++ s) : a = b ∧ r = s := by
  have h' : a.length :: (a ++ r) = b.length :: (b ++ s) := by
    simpa [encBytes] using h
  have hlen : a.length = b.length := by injection h'
  have htl : a ++ r = b ++ s := by injection h'
  exact List.append_inj htl hlen

theorem charToNat_injective : Function.Injective Char.toNat := by
  intro a b h
  have h2 := congrArg Char.ofNat h
  rwa [Char.ofNat_toNat, Char.ofNat_toNat] at h2

theorem strBytes_inj {s t : String} (h : strBytes s = strBytes t) : s = t := by
  have hd : s.data = t.data :=
    List.map_injective_iff.mpr charToNat_injective h
  cases s; cases t; exact congrArg String.mk hd

theorem encStr_split {a b : String} {r s : List Nat}
    (h : encStr a ++ r = encStr b ++ s) : a = b ∧ r = s := by
  obtain ⟨h1, h2⟩ := encBytes_split h
  exact ⟨strBytes_inj h1, h2⟩

theorem packStrs_ne_nil (x : String) (xs : List String) :
    packStrs (x :: xs) ≠ [] := by
  simp [packStrs, encStr, encBytes]

theorem packStrs_inj : ∀ {l1 l2 : List String}, packStrs l1 = packStrs l2 → l1 = l2 := by
  intro l1
  induction l1 with
  | nil =>
      intro l2 h
      cases l2 with
      | nil => rfl
      | cons y ys => exact absurd h.symm (packStrs_ne_nil y ys)
  | cons x xs ih =>
      intro l2 h
      cases l2 with
      | nil => exact absurd h (packStrs_ne_nil x xs)
      | cons y ys =>
          simp only [packStrs] at h
          obtain ⟨h1, h2⟩ := encStr_split h
          rw [h1, ih h2]

theorem packPairs_ne_nil (x : String × String) (xs : List (String × String)) :
    packPairs (x :: xs) ≠ [] := by
  simp [packPairs, encStr, encBytes]

theorem packPairs_inj :
    ∀ {l1 l2 : List (String × String)}, packPairs l1 = packPairs l2 → l1 = l2 := by
  intro l1
  induction l1 with
  | nil =>
      intro l2 h
      cases l2 with
      | nil => rfl
      | cons y ys => exact absurd h.symm (packPairs_ne_nil y ys)
  | cons x xs ih =>
      intro l2 h
      cases l2 with
      | nil => exact absurd h (packPairs_ne_nil x xs)
      | cons y ys =>
          simp only [packPairs] at h
          obtain ⟨h1, h2⟩ := encStr_split h
          obtain ⟨h3, h4⟩ := encStr_split h2
          obtain ⟨x1, x2⟩ := x
          obtain ⟨y1, y2⟩ := y
          simp only at h1 h3
          rw [h1, h3, ih h4]

theorem encStrList_split {a b : List String} {r s : List Nat}
    (h : encStrList a ++ r = encStrList b ++ s) : a = b ∧ r = s := by
  obtain ⟨h1, h2⟩ := encBytes_split h
  exact ⟨packStrs_inj h1, h2⟩

theorem encPairs_split {a b : List (String × String)} {r s : List Nat}
    (h : encPairs a ++ r = encPairs b ++ s) : a = b ∧ r = s := by
  obtain ⟨h1, h2⟩ := encBytes_split h
  exact ⟨packPairs_inj h1, h2⟩

theorem encU_split {a b : Nat} {r s : List Nat}
    (h : encU a ++ r = encU b ++ s) : a = b ∧ r = s := by
  have h' : a :: r = b :: s := by simpa [encU] using h
  refine ⟨by injection h', by injection h'⟩

theorem encSig_inj {o1 o2 : Option (List Nat)} (h : encSig o1 = encSig o2) :
    o1 = o2 := by
  cases o1 with
  | none =>
      cases o2 with
      | none => rfl
      | some s => simp [encSig, encBytes] at h
  | some s1 =>
      cases o2 with
      | none => simp [encSig, encBytes] at h
      | some s2 =>
          simp only [encSig] at h
          have h1 := (encBytes_split (r := []) (s := []) (by simpa using h)).1
          have h2 := (encBytes_split (r := []) (s := []) (by simpa using h1)).1
          rw [h2]

/-- The wire encoding is injective: equal marshaled bytes mean equal
certificates.  This is the fact the equivalence check of `signRequest`
relies on. -/
theorem SSHCert.marshal_inj {c1 c2 : SSHCert} (h : c1.marshal = c2.marshal) :
    c1 = c2 := by
  obtain ⟨a1, n1, k1, sr1, ct1, ki1, vp1, va1, vb1, co1, ex1, rv1, sk1, sg1⟩ := c1
  obtain ⟨a2, n2, k2, sr2, ct2, ki2, vp2, va2, vb2, co2, ex2, rv2, sk2, sg2⟩ := c2
  simp only [SSHCert.marshal, List.append_assoc] at h
  obtain ⟨e1, h⟩ := encStr_split h
  obtain ⟨e2, h⟩ := encBytes_split h
  obtain ⟨e3, h⟩ := encBytes_split h
  obtain ⟨e4, h⟩ := encU_split h
  obtain ⟨e5, h⟩ := encU_split h
  obtain ⟨e6, h⟩ := encStr_split h
  obtain ⟨e7, h⟩ := encStrList_split h
  obtain ⟨e8, h⟩ := encU_split h
  obtain ⟨e9, h⟩ := encU_split h
  obtain ⟨e10, h⟩ := encPairs_split h
  obtain ⟨e11, h⟩ := encPairs_split h
  obtain ⟨e12, h⟩ := encBytes_split h
  obtain ⟨e13, h⟩ := encBytes_split h
  have e14 := encSig_inj h
  simp only [SSHCert.mk.injEq]
  exact ⟨e1, e2, e3, e4, e5, e6, e7, e8, e9, e10, e11, e12, e13, e14⟩

/-- Modelled from the spec: the fingerprint utility of §4.1
(`ssh_ca_util.MakeFingerprint`, whose source is not under src/).  A stable
injective encoding of the public key's wire bytes stands in for the digest;
callers compare fingerprints for equality only. -/
def MakeFingerprint (wireBytes : List Nat) : String :=
  String.mk (wireBytes.map Char.ofNat)

/-- The `certRequest` record of the request store. -/
structure certRequest where
  request : SSHCert
  submitTime : Nat
  environment : String
  signatures : List (String × Bool)
  certSigned : Bool
  reason : String
deriving DecidableEq

/-- All-zero certificate, standing in for the nil `*ssh.Certificate` of a Go
zero-value `certRequest` (only ever read behind a `certSigned` guard that a
zero value fails). -/
def zeroCert : SSHCert :=
  { CertAlgo := "", Nonce := [], Key := [], Serial := 0, CertType := 0,
    KeyId := "", ValidPrincipals := [], ValidAfter := 0, ValidBefore := 0,
    CriticalOptions := [], Extensions := [], Reserved := [], SignatureKey := [],
    Signature := none }

/-- `newcertRequest()`: fresh record with the submission time stamped. -/
def newcertRequest (now : Nat) : certRequest :=
  { request := zeroCert, submitTime := now, environment := "",
    signatures := [], certSigned := false, reason := "" }

/-- Go zero value of `certRequest`, produced by indexing the state map at a
missing key (`getRequestStatus` relies on this). -/
def zeroCertRequest : certRequest := newcertRequest 0

/-- Outcome of an embedded HTTP handler: a response with status code and body,
or a Go runtime panic. -/
inductive HandlerResult where
  | response (status : Nat) (body : String)
  | panicked (msg : String)
deriving DecidableEq

/-- One value of the form field `cert`, classified by what the external
decoding and parsing steps make of it. -/
inductive CertBlob where
  | badB64
  | unparseable
  | plainKey
  | cert (c : SSHCert)
deriving DecidableEq

/-- Result of `extractCertFromRequest`. -/
inductive ExtractResult where
  | ok (c : SSHCert)
  | err (msg : String)
  | panicked (msg : String)
deriving DecidableEq

/-- The `CheckCert` step of `ssh.CertChecker` is external library code; the
embedded validator takes it as a parameter.  It receives the is-authority
predicate the handler builds over the configured table, the checked principal
and the certificate, and returns `none` on success or an error text. -/
abbrev CheckCertFn := (String → Bool) → String → SSHCert → Option String

/-- `certRequestHandler.extractCertFromRequest`.  The unchecked type
assertion `pubKey.(*ssh.Certificate)` and the index `cert.ValidPrincipals[0]`
are partial operations of the source and surface here as `panicked`. -/
def extractCertFromRequest (checkCert : CheckCertFn)
    (certField : Option (List CertBlob))
    (authorizedSigners : List (String × String)) : ExtractResult :=
  match certField with
  | none => .err "Please specify exactly one cert request"
  | some [] => .err "Please specify exactly one cert request"
  | some (b :: _) =>
    match b with
    | .badB64 => .err "Unable to base64 decode cert request"
    | .unparseable => .err "Unable to parse cert request"
    | .plainKey => .panicked "interface conversion: ssh.PublicKey is not *ssh.Certificate"
    | .cert c =>
      match c.ValidPrincipals with
      | [] => .panicked "runtime error: index out of range"
      | p :: _ =>
        match checkCert (fun fp => (mget fp authorizedSigners).isSome) p c with
        | some e => .err ("Cert not valid: " ++ e)
        | none => .ok c

/-- `certRequestHandler.saveSigningRequest`, checks in source order: requester
fingerprint must be an authorized user (the server overrides `KeyId` with the
configured principal), serial nonzero (then stamped), environment and reason
nonempty, request id long enough and unused; on success the record is
inserted. -/
def saveSigningRequest (config : SignerdConfig)
    (environment reason requestIDStr : String) (requestSerial : Nat)
    (cert : SSHCert) (now : Nat) (state : List (String × certRequest)) :
    Except String (List (String × certRequest)) :=
  let requesterFp := MakeFingerprint cert.SignatureKey
  match mget requesterFp config.AuthorizedUsers with
  | none => .error ("Requester fingerprint (" ++ requesterFp ++ ") not found in config")
  | some principal =>
    if requestSerial = 0 then .error "Serial number not set."
    else
      let cert := { cert with KeyId := principal, Serial := requestSerial }
      if environment = "" then .error "Environment is a required field"
      else if reason = "" then .error "Reason is a required field"
      else if requestIDStr.length < 12 then .error "Request id is too short to be useful."
      else if (mget requestIDStr state).isSome then
        .error ("Request id '" ++ requestIDStr ++ "' already in use.")
      else
        .ok (mput requestIDStr
          { request := cert, submitTime := now, environment := environment,
            signatures := [], certSigned := false, reason := reason } state)

/-- Result of `certRequestHandler.formBoilerplate`. -/
inductive BoilerplateResult where
  | ok (config : SignerdConfig) (environment : String)
  | err (msg : String)
  | panicked (msg : String)
deriving DecidableEq

/-- `certRequestHandler.formBoilerplate`: parse the form, read
`Form["environment"][0]`, resolve the environment in the configuration.  A
present-but-empty value list is the (unreachable in practice) indexing
panic. -/
def formBoilerplate (Config : List (String × SignerdConfig)) (parseOk : Bool)
    (envField : Option (List String)) : BoilerplateResult :=
  if !parseOk then .err "form parse error"
  else
    match envField with
    | none => .err "Must specify environment"
    | some [] => .panicked "runtime error: index out of range"
    | some (env :: _) =>
      match mget env Config with
      | none => .err "Environment is not configured (is it valid?)"
      | some cfg => .ok cfg env

/-- The decoded form of a create request. -/
structure CreateForm where
  parseOk : Bool
  environment : Option (List String)
  reason : Option (List String)
  certField : Option (List CertBlob)

/-- `certRequestHandler.createSigningRequest`.  The random request id and the
serial received from the `NextSerial` channel are parameters.  Note the
source reads `req.Form["reason"][0]` before any presence check: an absent
`reason` key indexes a nil slice and panics. -/
def createSigningRequest (checkCert : CheckCertFn)
    (Config : List (String × SignerdConfig))
    (state : List (String × certRequest)) (form : CreateForm)
    (requestIDStr : String) (nextSerial : Nat) (now : Nat) :
    HandlerResult × List (String × certRequest) :=
  match formBoilerplate Config form.parseOk form.environment with
  | .err msg => (.response 400 msg, state)
  | .panicked m => (.panicked m, state)
  | .ok config environment =>
    match extractCertFromRequest checkCert form.certField config.AuthorizedUsers with
    | .err msg => (.response 400 msg, state)
    | .panicked m => (.panicked m, state)
    | .ok cert =>
      match form.reason with
      | none => (.panicked "runtime error: index out of range", state)
      | some [] => (.panicked "runtime error: index out of range", state)
      | some (r :: _) =>
        if r = "" then (.response 400 "You forgot to send in a reason", state)
        else
          match saveSigningRequest config environment r requestIDStr nextSerial cert now state with
          | .error e => (.response 400 ("Request not made: " ++ e), state)
          | .ok st' => (.response 201 requestIDStr, st')

/-- The in-place normalization `signRequest` performs before comparing wire
forms: signature nil'd and nonce reset to the empty byte string. -/
def normalizeCert (c : SSHCert) : SSHCert := { c with Signature := none, Nonce := [] }

/-- Outcome of `signRequest`: the HTTP result, the store afterwards, and
whether the CA-signing branch (agent lookup plus `SignCert`) was entered. -/
structure SignOutcome where
  result : HandlerResult
  state : List (String × certRequest)
  caSignCalled : Bool
deriving DecidableEq

/-- `certRequestHandler.signRequest`.  `requestedCert` aliases the stored
record's certificate pointer, so the pre-comparison normalization writes
through to the store (`state'` below) on both the accept and the reject
path, mirroring the source.  `agentHasKey` models whether
`GetSignerForFingerprint` finds the CA key in the agent and `signCertFn`
models `SignCert` (which rewrites nonce, signature key and signature). -/
def signRequest (checkCert : CheckCertFn)
    (Config : List (String × SignerdConfig)) (agentHasKey : Bool)
    (signCertFn : SSHCert → SSHCert) (state : List (String × certRequest))
    (requestID : String) (parseOk : Bool) (certField : Option (List CertBlob)) :
    SignOutcome :=
  match mget requestID state with
  | none => ⟨.response 404 "Unknown request id", state, false⟩
  | some originalRequest =>
    if !parseOk then ⟨.response 400 "form parse error", state, false⟩
    else
      match mget originalRequest.environment Config with
      | none => ⟨.response 400 "Original request found to have an invalid env. Weird.", state, false⟩
      | some envConfig =>
        match extractCertFromRequest checkCert certField envConfig.AuthorizedSigners with
        | .err msg => ⟨.response 400 msg, state, false⟩
        | .panicked m => ⟨.panicked m, state, false⟩
        | .ok signedCert =>
          let signerFp := MakeFingerprint signedCert.SignatureKey
          let requestedCert := originalRequest.request
          let requestedCert' := normalizeCert requestedCert
          let signedCert' := normalizeCert { signedCert with SignatureKey := requestedCert.SignatureKey }
          let record' := { originalRequest with request := requestedCert' }
          let state' := mput requestID record' state
          if requestedCert'.marshal = signedCert'.marshal then
            let sigs' := mput signerFp true originalRequest.signatures
            let record'' := { record' with signatures := sigs' }
            let state'' := mput requestID record'' state
            if envConfig.NumberSignersRequired ≤ sigs'.length then
              if agentHasKey then
                ⟨.response 200 "",
                  mput requestID
                    { record'' with request := signCertFn requestedCert', certSigned := true }
                    state,
                  true⟩
              else
                ⟨.response 404 "Couldn't find signing key, unable to sign. Sorry.", state'', true⟩
            else ⟨.response 200 "", state'', false⟩
          else
            ⟨.response 400 "Signature was valid, but cert didn't match.", state', false⟩

/-- Model of `base64.StdEncoding.EncodeToString` on wire symbols: any fixed
textual encoding serves, the daemon only ever pipes it back to clients. -/
def base64Enc (l : List Nat) : String := String.mk (l.map Char.ofNat)

/-- One entry of the list response (`listResponseElement`). -/
structure listResponseElement where
  Environment : String
  Reason : String
  CertBlob : String
deriving DecidableEq

/-- `newResponseElement`. -/
def newResponseElement (environment reason certBlob : String) : listResponseElement :=
  { Environment := environment, Reason := reason, CertBlob := certBlob }

/-- Result of `listPendingRequests`, kept structured up to the external
`json.Marshal` step (which cannot fail on this data). -/
inductive ListResult where
  | badRequest (msg : String)
  | okJson (results : List (String × listResponseElement))
  | notFound (msg : String)
  | panicked (msg : String)
deriving DecidableEq

/-- The shape filter `^[A-Z2-7=]{16}$` applied to `certRequestId`, by code
point: uppercase letters, digits 2 through 7, or the padding sign. -/
def matchesIdShape (s : String) : Bool :=
  s.data.length == 16 &&
    s.data.all (fun ch =>
      (65 ≤ ch.toNat && ch.toNat ≤ 90) || (50 ≤ ch.toNat && ch.toNat ≤ 55) ||
        ch.toNat == 61)

/-- The response element built for one stored record. -/
def elementOf (v : certRequest) : listResponseElement :=
  newResponseElement v.environment v.reason (base64Enc v.request.marshal)

/-- `certRequestHandler.listPendingRequests`.  The iteration over the store
either collects every record (no filter, or the empty-string filter the
source lets through) or the unique record matching the filter; an empty
collection is 404. -/
def listPendingRequests (state : List (String × certRequest)) (parseOk : Bool)
    (certRequestIdField : Option (List String)) : ListResult :=
  if !parseOk then .badRequest "form parse error"
  else
    match certRequestIdField with
    | some [] => .panicked "runtime error: index out of range"
    | some (x :: _) =>
        if x ≠ "" && !(matchesIdShape x) then .badRequest "Invalid certRequestId"
        else if x = "" then
          match state with
          | [] => .notFound "No certs found."
          | _ :: _ => .okJson (state.map (fun kv => (kv.1, elementOf kv.2)))
        else
          match mget x state with
          | none => .notFound "No certs found."
          | some v => .okJson [(x, elementOf v)]
    | none =>
        match state with
        | [] => .notFound "No certs found."
        | _ :: _ => .okJson (state.map (fun kv => (kv.1, elementOf kv.2)))

/-- `certRequestHandler.getRequestStatus`: Go map indexing at a missing id
yields the zero-value record, whose `certSigned` is false. -/
def getRequestStatus (state : List (String × certRequest)) (requestID : String) :
    HandlerResult :=
  let cr := (mget requestID state).getD zeroCertRequest
  if cr.certSigned then
    .response 200 (cr.request.typeStr ++ " " ++ base64Enc cr.request.marshal ++ "\n")
  else
    .response 412 "Cert not signed yet."

/-- The serial-producing goroutine of `makeCertRequestHandler` runs
`var serial uint64` and `for serial = 1; ; serial++`, sending each value down
the `NextSerial` channel.  The counter is a `uint64`, so the k-th receive
(0-indexed) obtains `(k + 1) % 2 ^ 64`: after 2 ^ 64 - 1 sends the counter
wraps to 0 and the sequence repeats. -/
def nextSerialVal (k : Nat) : Nat := (k + 1) % 2 ^ 64

theorem normalizeCert_idem (c : SSHCert) :
    normalizeCert (normalizeCert c) = normalizeCert c := rfl

theorem normalizeCert_SignatureKey (c : SSHCert) :
    (normalizeCert c).SignatureKey = c.SignatureKey := rfl

/-- Two certificates whose normalized forms coincide agree on every field
the normalization does not touch, and on the signature key. -/
theorem normalizeCert_eq_fields {a b : SSHCert} (h : normalizeCert a = normalizeCert b) :
    a.CertAlgo = b.CertAlgo ∧ a.Key = b.Key ∧ a.Serial = b.Serial ∧
    a.CertType = b.CertType ∧ a.KeyId = b.KeyId ∧
    a.ValidPrincipals = b.ValidPrincipals ∧ a.ValidAfter = b.ValidAfter ∧
    a.ValidBefore = b.ValidBefore ∧ a.CriticalOptions = b.CriticalOptions ∧
    a.Extensions = b.Extensions ∧ a.Reserved = b.Reserved ∧
    a.SignatureKey = b.SignatureKey := by
  obtain ⟨a1, a2, a3, a4, a5, a6, a7, a8, a9, a10, a11, a12, a13, a14⟩ := a
  obtain ⟨b1, b2, b3, b4, b5, b6, b7, b8, b9, b10, b11, b12, b13, b14⟩ := b
  simp only [normalizeCert, SSHCert.mk.injEq, true_and, and_true] at h
  simp only []
  exact ⟨h.1, h.2.1, h.2.2.1, h.2.2.2.1, h.2.2.2.2.1, h.2.2.2.2.2.1,
    h.2.2.2.2.2.2.1, h.2.2.2.2.2.2.2.1, h.2.2.2.2.2.2.2.2.1,
    h.2.2.2.2.2.2.2.2.2.1, h.2.2.2.2.2.2.2.2.2.2.1, h.2.2.2.2.2.2.2.2.2.2.2⟩

/-- Inversion of a successful `extractCertFromRequest` on a parsed
certificate: the returned certificate is the parsed one. -/
theorem extractCert_ok_eq {checkCert : CheckCertFn}
    {signers : List (String × String)} {c c' : SSHCert}
    (h : extractCertFromRequest checkCert (some [CertBlob.cert c]) signers = .ok c') :
    c' = c := by
  unfold extractCertFromRequest at h
  cases hp : c.ValidPrincipals with
  | nil => simp [hp] at h
  | cons p ps =>
      simp only [hp] at h
      cases hc : checkCert (fun fp => (mget fp signers).isSome) p c with
      | some e => simp [hc] at h
      | none =>
          simp only [hc] at h
          exact (ExtractResult.ok.inj h).symm

/-- Inversion of a successful `saveSigningRequest`: what must have held of
the inputs and what the store looks like afterwards. -/
theorem saveSigningRequest_ok {config : SignerdConfig}
    {environment reason requestIDStr : String} {requestSerial : Nat}
    {cert : SSHCert} {now : Nat} {state st' : List (String × certRequest)}
    (h : saveSigningRequest config environment reason requestIDStr requestSerial
          cert now state = .ok st') :
    ∃ principal,
      mget (MakeFingerprint cert.SignatureKey) config.AuthorizedUsers = some principal ∧
      requestSerial ≠ 0 ∧ environment ≠ "" ∧ reason ≠ "" ∧
      mget requestIDStr state = none ∧
      st' = mput requestIDStr
        { request := { cert with KeyId := principal, Serial := requestSerial },
          submitTime := now, environment := environment, signatures := [],
          certSigned := false, reason := reason } state := by
  unfold saveSigningRequest at h
  cases hfp : mget (MakeFingerprint cert.SignatureKey) config.AuthorizedUsers with
  | none => simp [hfp] at h
  | some principal =>
      simp only [hfp] at h
      refine ⟨principal, rfl, ?_⟩
      by_cases h0 : requestSerial = 0
      · simp [h0] at h
      · rw [if_neg h0] at h
        by_cases he : environment = ""
        · simp [he] at h
        · rw [if_neg he] at h
          by_cases hr : reason = ""
          · simp [hr] at h
          · rw [if_neg hr] at h
            by_cases hl : requestIDStr.length < 12
            · simp [hl] at h
            · rw [if_neg hl] at h
              cases hg : (mget requestIDStr state : Option certRequest) with
              | some v => simp [hg] at h
              | none =>
                  simp only [hg, Option.isSome_none, Bool.false_eq_true,
                    if_false] at h
                  exact ⟨h0, he, hr, rfl, (Except.ok.inj h).symm⟩

/- Shared concrete fixtures: one environment "prod" with one authorized
user and two authorized signers, mirroring scenario S1 of the spec. -/

/-- Fingerprint of the requesting user's key (wire bytes [1]). -/
def fpUser : String := MakeFingerprint [1]

/-- Fingerprint of the first authorized signer (wire bytes [2]). -/
def fpS1 : String := MakeFingerprint [2]

/-- Fingerprint of the second authorized signer (wire bytes [3]). -/
def fpS2 : String := MakeFingerprint [3]

/-- The "prod" environment: quorum 2. -/
def cfgProd : SignerdConfig :=
  { SigningKeyFingerprint := MakeFingerprint [9],
    AuthorizedSigners := [(fpS1, "signer-one"), (fpS2, "signer-two")],
    AuthorizedUsers := [(fpUser, "user-one")],
    NumberSignersRequired := 2 }

/-- The "prod" environment with quorum 1. -/
def cfgProdOne : SignerdConfig := { cfgProd with NumberSignersRequired := 1 }

/-- Handler configuration holding only "prod" (quorum 2). -/
def ConfigProd : List (String × SignerdConfig) := [("prod", cfgProd)]

/-- Handler configuration holding only "prod" with quorum 1. -/
def ConfigProdOne : List (String × SignerdConfig) := [("prod", cfgProdOne)]

/-- A `CheckCert` oracle that accepts every certificate (the cryptographic
checks pass). -/
def chkOk : CheckCertFn := fun _ _ _ => none

/-- The request id used by the concrete scenarios. -/
def ridA : String := "AAAAAAAAAAAAAAAA"

/-- The certificate blob the user submits: self-signed (signature key [1]),
with a client-chosen key id the server must override. -/
def baseCert : SSHCert :=
  { CertAlgo := "ssh-rsa-cert-v01@openssh.com", Nonce := [7], Key := [4],
    Serial := 0, CertType := 1, KeyId := "spoofed",
    ValidPrincipals := ["user-one"], ValidAfter := 0, ValidBefore := 100,
    CriticalOptions := [], Extensions := [], Reserved := [],
    SignatureKey := [1], Signature := some [9] }

/-- The certificate as stored by a successful create: key id overridden with
the configured principal, serial 5 stamped. -/
def storedCert : SSHCert := { baseCert with KeyId := "user-one", Serial := 5 }

/-- The stored record right after the create. -/
def storedRec : certRequest :=
  { request := storedCert, submitTime := 0, environment := "prod",
    signatures := [], certSigned := false, reason := "deploy" }

/-- Signer one's endorsement: the stored certificate re-signed, so only the
nonce, signature key and signature differ. -/
def endorseCertS1 : SSHCert :=
  { storedCert with SignatureKey := [2], Signature := some [11], Nonce := [8] }

/-- Signer two's endorsement of the same stored certificate. -/
def endorseCertS2 : SSHCert :=
  { storedCert with SignatureKey := [3], Signature := some [55], Nonce := [66] }

/-- A forged endorsement: same shape but a stretched validity window. -/
def forgedCert : SSHCert := { endorseCertS1 with ValidBefore := 999 }

/-- The stored certificate after the CA signed it (SignCert rewrote nonce,
signature key and signature). -/
def caSignedCert : SSHCert :=
  { storedCert with Nonce := [33], SignatureKey := [9], Signature := some [44] }

/-- A record that already reached quorum 1 and was CA-signed. -/
def signedRec : certRequest :=
  { request := caSignedCert, submitTime := 0, environment := "prod",
    signatures := [(fpS1, true)], certSigned := true, reason := "deploy" }

/-- Concrete model of `SignCert` for the scenarios: fresh nonce, the CA key
as signature key, a fresh signature. -/
def caFn : SSHCert → SSHCert :=
  fun c => { c with Nonce := [77], SignatureKey := [9], Signature := some [88] }

/-- Claim C6 (counterexample): the allocator counts in a `uint64`, so it is
not strictly increasing and does return zero over all calls: the 2 ^ 64-th
value received is 0, and the sequence then repeats from 1. -/
theorem c6_serial_wraps_to_zero :
    nextSerialVal (2 ^ 64 - 1) = 0 ∧ nextSerialVal (2 ^ 64) = nextSerialVal 0 := by
  constructor
  · show (2 ^ 64 - 1 + 1) % 2 ^ 64 = 0
    norm_num
  · show (2 ^ 64 + 1) % 2 ^ 64 = (0 + 1) % 2 ^ 64
    norm_num

/-- Claim C6 as amended: until the `uint64` counter wraps — on the first
2 ^ 64 - 1 receives — serials are strictly increasing, positive and pairwise
distinct; independently of the allocator, `saveSigningRequest` rejects a
zero serial outright and an accepted record stores exactly the allocated
(nonzero) serial. -/
theorem c6_serial_allocator_amended :
    (∀ i j, j < 2 ^ 64 - 1 → i < j → nextSerialVal i < nextSerialVal j) ∧
    (∀ k, k < 2 ^ 64 - 1 → nextSerialVal k ≠ 0) ∧
    (∀ i j, i < 2 ^ 64 - 1 → j < 2 ^ 64 - 1 → i ≠ j →
      nextSerialVal i ≠ nextSerialVal j) ∧
    (∀ config environment reason requestIDStr cert now state,
      (saveSigningRequest config environment reason requestIDStr 0 cert now
        state).isOk = false) ∧
    (∀ config environment reason requestIDStr serial cert now state st' cr,
      saveSigningRequest config environment reason requestIDStr serial cert now
        state = .ok st' →
      mget requestIDStr st' = some cr →
      cr.request.Serial = serial ∧ serial ≠ 0) := by
  have hmod : ∀ k : Nat, k < 2 ^ 64 - 1 → nextSerialVal k = k + 1 := by
    intro k hk
    exact Nat.mod_eq_of_lt (by omega)
  refine ⟨?_, ?_, ?_, ?_, ?_⟩
  · intro i j hj hij
    rw [hmod i (by omega), hmod j hj]
    omega
  · intro k hk
    rw [hmod k hk]
    omega
  · intro i j hi hj hij
    rw [hmod i hi, hmod j hj]
    omega
  · intro config environment reason requestIDStr cert now state
    cases hfp : mget (MakeFingerprint cert.SignatureKey) config.AuthorizedUsers with
    | none => simp [saveSigningRequest, hfp, Except.isOk, Except.toBool]
    | some principal => simp [saveSigningRequest, hfp, Except.isOk, Except.toBool]
  · intro config environment reason requestIDStr serial cert now state st' cr hok hget
    obtain ⟨principal, hfp, h0, he, hr, hid, hst⟩ := saveSigningRequest_ok hok
    subst hst
    rw [mget_mput_self] at hget
    have hcr := Option.some.inj hget
    refine ⟨?_, h0⟩
    rw [← hcr]

/-- Witness for the amended C6 at concrete inputs: consecutive pre-wrap
serials increase and differ, serial 3 is nonzero, a zero serial is refused,
and the record stored for serial 5 carries serial 5. -/
theorem c6_serial_allocator_amended_witness :
    nextSerialVal 0 < nextSerialVal 1 ∧
    nextSerialVal 3 ≠ 0 ∧
    nextSerialVal 0 ≠ nextSerialVal 1 ∧
    (saveSigningRequest cfgProd "prod" "deploy" ridA 0 baseCert 0 []).isOk = false ∧
    (storedRec.request.Serial = 5 ∧ (5 : Nat) ≠ 0) :=
  ⟨c6_serial_allocator_amended.1 0 1 (by norm_num) (by norm_num),
   c6_serial_allocator_amended.2.1 3 (by norm_num),
   c6_serial_allocator_amended.2.2.1 0 1 (by norm_num) (by norm_num) (by norm_num),
   c6_serial_allocator_amended.2.2.2.1 cfgProd "prod" "deploy" ridA baseCert 0 [],
   c6_serial_allocator_amended.2.2.2.2 cfgProd "prod" "deploy" ridA 5 baseCert 0 []
     [(ridA, storedRec)] storedRec rfl rfl⟩

/-- Claim C9: the status endpoint answers 200 with the one-line textual
certificate exactly for records whose signed latch is true, and 412 ("Cert
not signed yet.") for everything else, unknown ids included; it never
answers 404. -/
theorem c9_status_endpoint (state : List (String × certRequest)) (requestID : String) :
    ((∃ body, getRequestStatus state requestID = .response 200 body) ↔
      ((mget requestID state).getD zeroCertRequest).certSigned = true) ∧
    (∀ cr, mget requestID state = some cr → cr.certSigned = true →
      getRequestStatus state requestID =
        .response 200 (cr.request.typeStr ++ " " ++ base64Enc cr.request.marshal ++ "\n")) ∧
    (∀ cr, mget requestID state = some cr → cr.certSigned = false →
      getRequestStatus state requestID = .response 412 "Cert not signed yet.") ∧
    (mget requestID state = none →
      getRequestStatus state requestID = .response 412 "Cert not signed yet.") ∧
    (∀ s b, getRequestStatus state requestID = .response s b → s ≠ 404) := by
  cases hm : mget requestID state with
  | none =>
      have hres : getRequestStatus state requestID = .response 412 "Cert not signed yet." := by
        simp [getRequestStatus, hm, zeroCertRequest, newcertRequest]
      refine ⟨⟨?_, ?_⟩, ?_, ?_, ?_, ?_⟩
      · rintro ⟨body, hb⟩
        rw [hres] at hb
        simp at hb
      · intro h
        simp [zeroCertRequest, newcertRequest] at h
      · intro cr hg hsig
        cases hg
      · intro cr hg hsig
        cases hg
      · intro _
        exact hres
      · intro s b hb
        rw [hres] at hb
        obtain ⟨h1, h2⟩ := HandlerResult.response.inj hb
        omega
  | some cr =>
      cases hcs : cr.certSigned with
      | false =>
          have hres : getRequestStatus state requestID = .response 412 "Cert not signed yet." := by
            simp [getRequestStatus, hm, hcs]
          refine ⟨⟨?_, ?_⟩, ?_, ?_, ?_, ?_⟩
          · rintro ⟨body, hb⟩
            rw [hres] at hb
            simp at hb
          · intro h
            simp only [Option.getD_some] at h
            exact absurd h (by simp [hcs])
          · intro cr' hg hsig
            cases Option.some.inj hg
            exact absurd hsig (by simp [hcs])
          · intro cr' hg hsig
            cases Option.some.inj hg
            exact hres
          · intro hn
            cases hn
          · intro s b hb
            rw [hres] at hb
            obtain ⟨h1, h2⟩ := HandlerResult.response.inj hb
            omega
      | true =>
          have hres : getRequestStatus state requestID =
              .response 200 (cr.request.typeStr ++ " " ++
                base64Enc cr.request.marshal ++ "\n") := by
            simp [getRequestStatus, hm, hcs]
          refine ⟨⟨?_, ?_⟩, ?_, ?_, ?_, ?_⟩
          · intro _
            simpa using hcs
          · intro _
            exact ⟨_, hres⟩
          · intro cr' hg hsig
            cases Option.some.inj hg
            exact hres
          · intro cr' hg hsig
            cases Option.some.inj hg
            rw [hcs] at hsig
            simp at hsig
          · intro hn
            cases hn
          · intro s b hb
            rw [hres] at hb
            obtain ⟨h1, h2⟩ := HandlerResult.response.inj hb
            omega

/-- Witness for C9: a signed record yields 200 and its textual certificate;
a stored but not yet signed record yields 412, and so does an id absent
from the store. -/
theorem c9_status_endpoint_witness :
    getRequestStatus [(ridA, signedRec)] ridA =
      .response 200 (signedRec.request.typeStr ++ " " ++
        base64Enc signedRec.request.marshal ++ "\n") ∧
    getRequestStatus [(ridA, storedRec)] ridA = .response 412 "Cert not signed yet." ∧
    getRequestStatus [] "BBBBBBBBBBBBBBBB" = .response 412 "Cert not signed yet." :=
  ⟨(c9_status_endpoint [(ridA, signedRec)] ridA).2.1 signedRec (by decide) rfl,
   (c9_status_endpoint [(ridA, storedRec)] ridA).2.2.1 storedRec (by decide) rfl,
   (c9_status_endpoint [] "BBBBBBBBBBBBBBBB").2.2.2.1 rfl⟩

/-- Claim C10: a `certRequestId` query parameter present with the empty
string as value is not rejected: the shape check only fires on nonempty
values, so the handler behaves exactly as with no filter, returning every
stored record (200) or 404 on an empty store, and never a 400. -/
theorem c10_empty_filter (state : List (String × certRequest)) :
    listPendingRequests state true (some [""]) = listPendingRequests state true none ∧
    (state = [] →
      listPendingRequests state true (some [""]) = .notFound "No certs found.") ∧
    (state ≠ [] →
      listPendingRequests state true (some [""]) =
        .okJson (state.map (fun kv => (kv.1, elementOf kv.2)))) ∧
    (∀ msg, listPendingRequests state true (some [""]) ≠ .badRequest msg) := by
  refine ⟨?_, ?_, ?_, ?_⟩
  · cases state <;> rfl
  · intro h
    subst h
    rfl
  · intro h
    cases state with
    | nil => exact absurd rfl h
    | cons kv rest => rfl
  · intro msg
    cases state <;> simp [listPendingRequests]

/-- Witness for C10: with the empty-string filter, the empty store answers
404 and a one-record store answers 200 with that record. -/
theorem c10_empty_filter_witness :
    listPendingRequests [] true (some [""]) = .notFound "No certs found." ∧
    listPendingRequests [(ridA, storedRec)] true (some [""]) =
      .okJson [(ridA, elementOf storedRec)] := by
  refine ⟨(c10_empty_filter []).2.1 rfl, ?_⟩
  have h := (c10_empty_filter [(ridA, storedRec)]).2.2.1 (by simp)
  simpa using h

/-- A create form with a valid environment and certificate whose `reason` key
is absent entirely. -/
def formNoReason : CreateForm :=
  { parseOk := true, environment := some ["prod"], reason := none,
    certField := some [CertBlob.cert baseCert] }

/-- Claim C7 (bug exhibit): with environment and certificate valid but the
`reason` form field absent, `createSigningRequest` indexes the nil slice
`req.Form["reason"]` and panics instead of answering 400; no record is
inserted.  A present-but-empty `reason` is the case the source does handle
with 400. -/
theorem c7_missing_reason_panics :
    (createSigningRequest chkOk ConfigProd [] formNoReason ridA 5 0).1 =
      .panicked "runtime error: index out of range" ∧
    (createSigningRequest chkOk ConfigProd [] formNoReason ridA 5 0).2 = [] ∧
    (createSigningRequest chkOk ConfigProd []
        { formNoReason with reason := some [""] } ridA 5 0).1 =
      .response 400 "You forgot to send in a reason" :=
  ⟨rfl, rfl, rfl⟩

/-- Claim C8 (bug exhibit): the validator is not total.  A blob that parses
as a plain public key hits the unchecked type assertion
`pubKey.(*ssh.Certificate)` and panics, and a certificate with no valid
principals panics on `cert.ValidPrincipals[0]` before `CheckCert` can
reject it; neither input produces an error value. -/
theorem c8_validator_panics :
    extractCertFromRequest chkOk (some [CertBlob.plainKey]) cfgProd.AuthorizedUsers =
      .panicked "interface conversion: ssh.PublicKey is not *ssh.Certificate" ∧
    extractCertFromRequest chkOk
        (some [CertBlob.cert { baseCert with ValidPrincipals := [] }])
        cfgProd.AuthorizedUsers =
      .panicked "runtime error: index out of range" :=
  ⟨rfl, rfl⟩

/-- The outcome of a rejected (forged) endorsement against the stored
record. -/
def c3out : SignOutcome :=
  signRequest chkOk ConfigProd true caFn [(ridA, storedRec)] ridA true
    (some [CertBlob.cert forgedCert])

/-- Claim C3 (bug exhibit): the equivalence check does not operate on
copies.  `requestedCert` aliases the stored certificate, so even an
endorsement rejected by the byte comparison leaves the stored record's
certificate normalized: its signature, previously present, is now nil and
its nonce, previously [7], is now empty. -/
theorem c3_rejected_endorsement_mutates_store :
    c3out.result = .response 400 "Signature was valid, but cert didn't match." ∧
    mget ridA c3out.state = some { storedRec with request := normalizeCert storedCert } ∧
    storedRec.request.Signature = some [9] ∧
    storedRec.request.Nonce = [7] ∧
    (normalizeCert storedCert).Signature = none ∧
    (normalizeCert storedCert).Nonce = [] ∧
    normalizeCert storedCert ≠ storedCert := by
  refine ⟨by decide, by decide, rfl, rfl, rfl, rfl, by decide⟩

/-- The outcome of a fresh endorsement by the second signer after the
record already latched `certSigned` at quorum 1. -/
def c4out : SignOutcome :=
  signRequest chkOk ConfigProdOne true caFn [(ridA, signedRec)] ridA true
    (some [CertBlob.cert endorseCertS2])

/-- Claim C4 (bug exhibit): the signed flag is not consulted by
`signRequest`, so it is no latch for the store.  A record with `certSigned`
already true accepts a further valid endorsement: the endorser set grows,
the CA-signing branch runs again, and the stored certificate is rewritten
by the new `SignCert` call. -/
theorem c4_signed_latch_not_enforced :
    c4out.caSignCalled = true ∧
    c4out.result = .response 200 "" ∧
    mget ridA c4out.state =
      some { signedRec with
               request := caFn (normalizeCert caSignedCert),
               signatures := [(fpS1, true), (fpS2, true)],
               certSigned := true } ∧
    caFn (normalizeCert caSignedCert) ≠ signedRec.request ∧
    [(fpS1, true), (fpS2, true)] ≠ signedRec.signatures := by
  refine ⟨by decide, by decide, by decide, by decide, by decide⟩

/-- Claim C2: an endorsement whose certificate passes the validator but
differs from the stored one in any field other than Signature, Nonce and
SignatureKey is rejected with 400 and the endorser set is not extended
(the wire forms cannot agree, by injectivity of the marshaled encoding). -/
theorem c2_equivalence_check_soundness
    (checkCert : CheckCertFn) (Config : List (String × SignerdConfig))
    (agentHasKey : Bool) (signCertFn : SSHCert → SSHCert)
    (state : List (String × certRequest)) (requestID : String)
    (certField : Option (List CertBlob)) (cr : certRequest)
    (envConfig : SignerdConfig) (c : SSHCert)
    (hrec : mget requestID state = some cr)
    (hcfg : mget cr.environment Config = some envConfig)
    (hvalid : extractCertFromRequest checkCert certField envConfig.AuthorizedSigners = .ok c)
    (hdiff : ¬ (c.CertAlgo = cr.request.CertAlgo ∧ c.Key = cr.request.Key ∧
      c.Serial = cr.request.Serial ∧ c.CertType = cr.request.CertType ∧
      c.KeyId = cr.request.KeyId ∧ c.ValidPrincipals = cr.request.ValidPrincipals ∧
      c.ValidAfter = cr.request.ValidAfter ∧ c.ValidBefore = cr.request.ValidBefore ∧
      c.CriticalOptions = cr.request.CriticalOptions ∧
      c.Extensions = cr.request.Extensions ∧ c.Reserved = cr.request.Reserved)) :
    (signRequest checkCert Config agentHasKey signCertFn state requestID true
        certField).result = .response 400 "Signature was valid, but cert didn't match." ∧
    ∃ cr', mget requestID (signRequest checkCert Config agentHasKey signCertFn state
        requestID true certField).state = some cr' ∧ cr'.signatures = cr.signatures := by
  have hne : ¬ ((normalizeCert cr.request).marshal =
      (normalizeCert { c with SignatureKey := cr.request.SignatureKey }).marshal) := by
    intro heq
    have hf := normalizeCert_eq_fields (SSHCert.marshal_inj heq)
    exact hdiff ⟨hf.1.symm, hf.2.1.symm, hf.2.2.1.symm, hf.2.2.2.1.symm,
      hf.2.2.2.2.1.symm, hf.2.2.2.2.2.1.symm, hf.2.2.2.2.2.2.1.symm,
      hf.2.2.2.2.2.2.2.1.symm, hf.2.2.2.2.2.2.2.2.1.symm,
      hf.2.2.2.2.2.2.2.2.2.1.symm, hf.2.2.2.2.2.2.2.2.2.2.1.symm⟩
  have hrun : signRequest checkCert Config agentHasKey signCertFn state requestID true
      certField =
      ⟨.response 400 "Signature was valid, but cert didn't match.",
        mput requestID { cr with request := normalizeCert cr.request } state, false⟩ := by
    simp [signRequest, hrec, hcfg, hvalid, hne]
  refine ⟨by rw [hrun], ⟨{ cr with request := normalizeCert cr.request }, ?_, rfl⟩⟩
  rw [hrun]
  exact mget_mput_self requestID _ state

/-- Witness for C2: the forged endorsement (stretched ValidBefore) against
the stored record is answered 400 and the endorser set stays empty. -/
theorem c2_equivalence_check_soundness_witness :
    (signRequest chkOk ConfigProd true caFn [(ridA, storedRec)] ridA true
        (some [CertBlob.cert forgedCert])).result =
      .response 400 "Signature was valid, but cert didn't match." ∧
    ∃ cr', mget ridA (signRequest chkOk ConfigProd true caFn [(ridA, storedRec)] ridA
        true (some [CertBlob.cert forgedCert])).state = some cr' ∧
      cr'.signatures = storedRec.signatures :=
  c2_equivalence_check_soundness chkOk ConfigProd true caFn [(ridA, storedRec)] ridA
    (some [CertBlob.cert forgedCert]) storedRec cfgProd forgedCert rfl rfl rfl
    (by decide)

/-- Claim C5: endorsement is idempotent per signer fingerprint.  On a record
with no endorsers yet and quorum above 1, two successive valid endorsements
of the stored certificate by the same signer both answer 200, never enter
the CA-signing branch, and leave the endorser count at 1. -/
theorem c5_duplicate_endorsement_idempotent
    (checkCert : CheckCertFn) (Config : List (String × SignerdConfig))
    (agentHasKey : Bool) (signCertFn : SSHCert → SSHCert)
    (state : List (String × certRequest)) (requestID : String)
    (certField : Option (List CertBlob)) (cr : certRequest)
    (envConfig : SignerdConfig) (c : SSHCert)
    (hrec : mget requestID state = some cr)
    (hsig0 : cr.signatures = [])
    (hcfg : mget cr.environment Config = some envConfig)
    (hN : 1 < envConfig.NumberSignersRequired)
    (hvalid : extractCertFromRequest checkCert certField envConfig.AuthorizedSigners = .ok c)
    (heqv : normalizeCert { c with SignatureKey := cr.request.SignatureKey } =
      normalizeCert cr.request) :
    let o1 := signRequest checkCert Config agentHasKey signCertFn state requestID
      true certField
    let o2 := signRequest checkCert Config agentHasKey signCertFn o1.state requestID
      true certField
    o1.result = .response 200 "" ∧ o1.caSignCalled = false ∧
    o2.result = .response 200 "" ∧ o2.caSignCalled = false ∧
    ∃ cr2, mget requestID o2.state = some cr2 ∧ cr2.signatures.length = 1 := by
  intro o1 o2
  have hmeq : (normalizeCert cr.request).marshal =
      (normalizeCert { c with SignatureKey := cr.request.SignatureKey }).marshal := by
    rw [heqv]
  have hnotle : ¬ (envConfig.NumberSignersRequired ≤ 1) := by omega
  have hrun1 : signRequest checkCert Config agentHasKey signCertFn state requestID
      true certField =
      ⟨.response 200 "",
        mput requestID
          { cr with request := normalizeCert cr.request,
                    signatures := [(MakeFingerprint c.SignatureKey, true)] } state,
        false⟩ := by
    simp [signRequest, hrec, hcfg, hvalid, hmeq, hsig0, mput, hnotle]
  have ho1 : o1 =
      ⟨.response 200 "",
        mput requestID
          { cr with request := normalizeCert cr.request,
                    signatures := [(MakeFingerprint c.SignatureKey, true)] } state,
        false⟩ := hrun1
  have hget1 : mget requestID o1.state =
      some { cr with request := normalizeCert cr.request,
                     signatures := [(MakeFingerprint c.SignatureKey, true)] } := by
    rw [ho1]
    exact mget_mput_self requestID _ state
  have ho2 : o2 =
      ⟨.response 200 "",
        mput requestID
          { cr with request := normalizeCert cr.request,
                    signatures := [(MakeFingerprint c.SignatureKey, true)] } o1.state,
        false⟩ := by
    show signRequest checkCert Config agentHasKey signCertFn o1.state requestID
      true certField = _
    simp [signRequest, hget1, hcfg, hvalid, hmeq, mput, hnotle, normalizeCert_idem,
      normalizeCert_SignatureKey]
  refine ⟨by rw [ho1], by rw [ho1], by rw [ho2], by rw [ho2],
    ⟨{ cr with request := normalizeCert cr.request,
               signatures := [(MakeFingerprint c.SignatureKey, true)] }, ?_, rfl⟩⟩
  rw [ho2]
  exact mget_mput_self requestID _ o1.state

/-- Witness for C5: signer one endorses the stored record twice under quorum
2; both calls answer 200, the CA branch never runs, the endorser count is 1. -/
theorem c5_duplicate_endorsement_idempotent_witness :
    let o1 := signRequest chkOk ConfigProd true caFn [(ridA, storedRec)] ridA true
      (some [CertBlob.cert endorseCertS1])
    let o2 := signRequest chkOk ConfigProd true caFn o1.state ridA true
      (some [CertBlob.cert endorseCertS1])
    o1.result = .response 200 "" ∧ o1.caSignCalled = false ∧
    o2.result = .response 200 "" ∧ o2.caSignCalled = false ∧
    ∃ cr2, mget ridA o2.state = some cr2 ∧ cr2.signatures.length = 1 :=
  c5_duplicate_endorsement_idempotent chkOk ConfigProd true caFn [(ridA, storedRec)]
    ridA (some [CertBlob.cert endorseCertS1]) storedRec cfgProd endorseCertS1 rfl rfl
    rfl (by decide) rfl (by decide)

/-- Claim C1: a request accepted by `createSigningRequest` stores a record
whose certificate's KeyId is the principal the configuration maps the
requester's signature-key fingerprint to, whatever KeyId the client put in
the submitted certificate; when the fingerprint is not in the table, the
store is unchanged and no 201 is possible. -/
theorem c1_keyid_server_controlled
    (checkCert : CheckCertFn) (Config : List (String × SignerdConfig))
    (state : List (String × certRequest)) (form : CreateForm)
    (requestIDStr : String) (nextSerial now : Nat) (c : SSHCert)
    (config : SignerdConfig) (environment : String)
    (hb : formBoilerplate Config form.parseOk form.environment = .ok config environment)
    (hc : form.certField = some [CertBlob.cert c]) :
    ((createSigningRequest checkCert Config state form requestIDStr nextSerial now).1 =
        .response 201 requestIDStr →
      ∃ cr principal,
        mget requestIDStr
          (createSigningRequest checkCert Config state form requestIDStr nextSerial now).2 =
          some cr ∧
        mget (MakeFingerprint c.SignatureKey) config.AuthorizedUsers = some principal ∧
        cr.request.KeyId = principal) ∧
    (mget (MakeFingerprint c.SignatureKey) config.AuthorizedUsers = none →
      (createSigningRequest checkCert Config state form requestIDStr nextSerial now).2 =
        state ∧
      ∀ body,
        (createSigningRequest checkCert Config state form requestIDStr nextSerial now).1 ≠
          .response 201 body) := by
  cases hex : extractCertFromRequest checkCert form.certField config.AuthorizedUsers with
  | err m =>
      have hrun : createSigningRequest checkCert Config state form requestIDStr
          nextSerial now = (.response 400 m, state) := by
        simp [createSigningRequest, hb, hex]
      constructor
      · intro h
        rw [hrun] at h
        simp at h
      · intro _
        exact ⟨by rw [hrun], fun body h => by rw [hrun] at h; simp at h⟩
  | panicked m =>
      have hrun : createSigningRequest checkCert Config state form requestIDStr
          nextSerial now = (.panicked m, state) := by
        simp [createSigningRequest, hb, hex]
      constructor
      · intro h
        rw [hrun] at h
        simp at h
      · intro _
        exact ⟨by rw [hrun], fun body h => by rw [hrun] at h; simp at h⟩
  | ok c2 =>
      have hex2 : extractCertFromRequest checkCert (some [CertBlob.cert c])
          config.AuthorizedUsers = .ok c2 := by rw [← hc]; exact hex
      cases extractCert_ok_eq hex2
      cases hr : form.reason with
      | none =>
          have hrun : createSigningRequest checkCert Config state form requestIDStr
              nextSerial now = (.panicked "runtime error: index out of range", state) := by
            simp [createSigningRequest, hb, hex, hr]
          constructor
          · intro h
            rw [hrun] at h
            simp at h
          · intro _
            exact ⟨by rw [hrun], fun body h => by rw [hrun] at h; simp at h⟩
      | some rs =>
          cases rs with
          | nil =>
              have hrun : createSigningRequest checkCert Config state form requestIDStr
                  nextSerial now =
                  (.panicked "runtime error: index out of range", state) := by
                simp [createSigningRequest, hb, hex, hr]
              constructor
              · intro h
                rw [hrun] at h
                simp at h
              · intro _
                exact ⟨by rw [hrun], fun body h => by rw [hrun] at h; simp at h⟩
          | cons r rest =>
              by_cases hre : r = ""
              · have hrun : createSigningRequest checkCert Config state form requestIDStr
                    nextSerial now =
                    (.response 400 "You forgot to send in a reason", state) := by
                  simp [createSigningRequest, hb, hex, hr, hre]
                constructor
                · intro h
                  rw [hrun] at h
                  simp at h
                · intro _
                  exact ⟨by rw [hrun], fun body h => by rw [hrun] at h; simp at h⟩
              · cases hs : saveSigningRequest config environment r requestIDStr nextSerial
                    c now state with
                | error e =>
                    have hrun : createSigningRequest checkCert Config state form
                        requestIDStr nextSerial now =
                        (.response 400 ("Request not made: " ++ e), state) := by
                      simp [createSigningRequest, hb, hex, hr, hre, hs]
                    constructor
                    · intro h
                      rw [hrun] at h
                      simp at h
                    · intro _
                      exact ⟨by rw [hrun], fun body h => by rw [hrun] at h; simp at h⟩
                | ok st' =>
                    have hrun : createSigningRequest checkCert Config state form
                        requestIDStr nextSerial now = (.response 201 requestIDStr, st') := by
                      simp [createSigningRequest, hb, hex, hr, hre, hs]
                    obtain ⟨principal, hfp, h0, he, hrr, hid, hstdef⟩ :=
                      saveSigningRequest_ok hs
                    constructor
                    · intro _
                      refine ⟨{ request := { c with KeyId := principal, Serial := nextSerial },
                                submitTime := now, environment := environment,
                                signatures := [], certSigned := false, reason := r },
                              principal, ?_, hfp, rfl⟩
                      rw [hrun, hstdef]
                      exact mget_mput_self requestIDStr _ state
                    · intro hnone
                      rw [hfp] at hnone
                      cases hnone

/-- A fully valid create form for the "prod" environment. -/
def formGood : CreateForm :=
  { parseOk := true, environment := some ["prod"], reason := some ["deploy"],
    certField := some [CertBlob.cert baseCert] }

/-- A certificate self-signed by a key (wire bytes [5]) that no authorized
user of "prod" owns. -/
def strangerCert : SSHCert := { baseCert with SignatureKey := [5] }

/-- The create form submitting the stranger's certificate. -/
def formStranger : CreateForm :=
  { formGood with certField := some [CertBlob.cert strangerCert] }

/-- Witness for C1: the accepted concrete request stores KeyId "user-one"
(although the client wrote "spoofed"), and the stranger's request leaves the
store empty. -/
theorem c1_keyid_server_controlled_witness :
    (∃ cr principal,
      mget ridA (createSigningRequest chkOk ConfigProd [] formGood ridA 5 0).2 =
        some cr ∧
      mget (MakeFingerprint baseCert.SignatureKey) cfgProd.AuthorizedUsers =
        some principal ∧
      cr.request.KeyId = principal) ∧
    (createSigningRequest chkOk ConfigProd [] formStranger ridA 5 0).2 = [] :=
  ⟨(c1_keyid_server_controlled chkOk ConfigProd [] formGood ridA 5 0 baseCert
      cfgProd "prod" rfl rfl).1 rfl,
   ((c1_keyid_server_controlled chkOk ConfigProd [] formStranger ridA 5 0 strangerCert
      cfgProd "prod" rfl rfl).2 (by decide)).1⟩
